import Mathlib

/-!
Verification of the NPB benchmark harness (`npbtool.py`).

The harness has two modes:
* `time` (`do_time`): run the benchmark child, scan its combined output
  line-by-line for two marker substrings, derive duration splits, and
  print a report.
* `profile` (`do_profile`): load the `msr` kernel module, create the
  output directory, spawn the benchmark, and concurrently launch the AMD
  profiler after a caller-estimated delay.

Embedding conventions:
* Wall-clock instants are rationals (`ℚ`).  Each line of child output is
  paired with the instant at which the scanner processes it.
* The scanner thread's mutable `nonlocal` state becomes explicit state
  threading; an uncaught Python exception in the thread becomes an
  `Option HarnessError` recorded in the scan outcome (the thread dies,
  the main flow proceeds — the default thread excepthook only prints the
  traceback).
* `do_profile`'s side effects become an event trace; the profiler task's
  events are serialized at its start point, which is sound for the
  properties proved here because `process.wait()` and `thread.join()`
  both precede the final prints.
-/

/-- `OMP_NUM_THREADS = 64` (npbtool.py line 23). -/
def OMP_NUM_THREADS : Nat := 64

/-- `SPLIT_MARKER = 'Initialization time'` (npbtool.py line 25). -/
def SPLIT_MARKER : String := "Initialization time"

/-- `MOP_S_MARKER = 'Mop/s total'` (npbtool.py line 26). -/
def MOP_S_MARKER : String := "Mop/s total"

/-- `UPROF_PCM_EXE` (npbtool.py line 28). -/
def UPROF_PCM_EXE : String := "/opt/AMDuProf_4.2-850/bin/AMDuProfPcm"

/-- Does the character list begin with the given marker characters? -/
def charsMatchAt : List Char → List Char → Bool
  | _, [] => true
  | [], _ :: _ => false
  | c :: cs, d :: ds => c == d && charsMatchAt cs ds

/-- Does the marker occur as a contiguous run anywhere in the list? -/
def charsHaveMarker : List Char → List Char → Bool
  | [], m => m.isEmpty
  | c :: cs, m => charsMatchAt (c :: cs) m || charsHaveMarker cs m

/-- Python's `marker in line` substring test. -/
def strContains (line marker : String) : Bool :=
  charsHaveMarker line.data marker.data

/-- ASCII whitespace recognized by Python's `str.split()` with no
arguments and stripped by `float()`. -/
def isSpaceChar (c : Char) : Bool :=
  c == ' ' || c == '\t' || c == '\n' || c == '\r' || c == '\x0b' || c == '\x0c'

/-- Accumulator-style worker for `pySplit`: the second argument holds the
current (reversed) in-progress token. -/
def splitWsAux : List Char → List Char → List String
  | [], acc => if acc.isEmpty then [] else [String.mk acc.reverse]
  | c :: cs, acc =>
      if isSpaceChar c then
        if acc.isEmpty then splitWsAux cs []
        else String.mk acc.reverse :: splitWsAux cs []
      else splitWsAux cs (c :: acc)

/-- Python's `line.split()`: split on runs of whitespace, no empty
tokens. -/
def pySplit (s : String) : List String :=
  splitWsAux s.data []

/-- Numeric value of an ASCII digit. -/
def digitVal (c : Char) : Option Nat :=
  if '0' ≤ c ∧ c ≤ '9' then some (c.toNat - '0'.toNat) else none

/-- Split a character list into its leading digits and the remainder. -/
def takeDigits : List Char → List Nat × List Char
  | [] => ([], [])
  | c :: cs =>
      match digitVal c with
      | some d =>
          let p := takeDigits cs
          (d :: p.1, p.2)
      | none => ([], c :: cs)

/-- Base-10 value of a digit list. -/
def digitsToNat (ds : List Nat) : Nat :=
  ds.foldl (fun a d => a * 10 + d) 0

/-- Parse the part of a float literal after `e`/`E`: optional sign then
one or more digits, consuming the whole remainder. -/
def parseExponentThen (sign mant : ℚ) (t : List Char) : Option ℚ :=
  let esigned : Int × List Char :=
    match t with
    | '-' :: u => (-1, u)
    | '+' :: u => (1, u)
    | u => (1, u)
  let eds := takeDigits esigned.2
  if eds.1.isEmpty ∨ ¬ eds.2.isEmpty then none
  else some (sign * mant * (10 : ℚ) ^ (esigned.1 * (digitsToNat eds.1 : Int)))

/-- Python's `float(s)` on the decimal forms a benchmark prints: optional
surrounding whitespace, optional sign, integer and/or fractional digits,
optional exponent.  (`inf`/`nan` spellings and `_` digit separators are
not modelled; no marker line uses them.)  `none` is Python's
`ValueError`. -/
def parseFloat (s : String) : Option ℚ :=
  let cs := ((s.data.dropWhile isSpaceChar).reverse.dropWhile isSpaceChar).reverse
  let signed : ℚ × List Char :=
    match cs with
    | '-' :: t => (-1, t)
    | '+' :: t => (1, t)
    | t => (1, t)
  let sign := signed.1
  let ip := takeDigits signed.2
  let frac : List Nat × List Char :=
    match ip.2 with
    | '.' :: t => takeDigits t
    | t => ([], t)
  if ip.1.isEmpty ∧ frac.1.isEmpty then none
  else
    let mant : ℚ :=
      (digitsToNat ip.1 : ℚ) + (digitsToNat frac.1 : ℚ) / (10 ^ frac.1.length : ℚ)
    match frac.2 with
    | [] => some (sign * mant)
    | 'e' :: t => parseExponentThen sign mant t
    | 'E' :: t => parseExponentThen sign mant t
    | _ => none

/-- A line of child output as the scanner thread sees it, tagged with the
wall-clock instant (`time.time()`) at which the scanner processes it. -/
structure OutLine where
  t : ℚ
  text : String
deriving DecidableEq, Repr

/-- The scanner thread's `nonlocal` variables (npbtool.py lines 41-42):
both start out as Python `None`. -/
structure ScanState where
  initialization_duration : Option ℚ
  mop_s : Option ℚ
deriving DecidableEq, Repr

/-- Python exceptions the harness can die of. -/
inductive HarnessError where
  /-- `line.split()[3]` with fewer than four tokens. -/
  | indexError
  /-- `float(...)` on an unparseable token. -/
  | valueError
  /-- formatting `None` with `:.2f` in the report f-string. -/
  | typeError
deriving DecidableEq, Repr

/-- Result of processing one line in `tail_output`: either the updated
state, or the state at the moment an exception was raised. -/
inductive StepResult where
  | ok (st : ScanState)
  | fail (st : ScanState) (e : HarnessError)
deriving DecidableEq, Repr

/-- The state carried by either outcome of a step. -/
def StepResult.state : StepResult → ScanState
  | .ok st => st
  | .fail st _ => st

/-- The first `if` of the loop body (npbtool.py lines 50-51): on the
first line containing the split marker, record the elapsed instant. -/
def splitStep (start_time : ℚ) (st : ScanState) (l : OutLine) : ScanState :=
  if strContains l.text SPLIT_MARKER && st.initialization_duration.isNone then
    { st with initialization_duration := some (l.t - start_time) }
  else st

/-- The second `if` of the loop body (npbtool.py lines 53-54): on the
first line containing the throughput marker, `float(line.split()[3])`;
the subscript raises `IndexError` on fewer than four tokens and `float`
raises `ValueError` on an unparseable token. -/
def mopStep (l : OutLine) (st1 : ScanState) : StepResult :=
  if strContains l.text MOP_S_MARKER && st1.mop_s.isNone then
    match (pySplit l.text)[3]? with
    | none => .fail st1 .indexError
    | some tok =>
        match parseFloat tok with
        | none => .fail st1 .valueError
        | some v => .ok { st1 with mop_s := some v }
  else .ok st1

/-- One iteration of the `for line in process.stdout` body
(npbtool.py lines 47-54): the two marker checks run in sequence on the
same line. -/
def scanLineStep (start_time : ℚ) (st : ScanState) (l : OutLine) : StepResult :=
  mopStep l (splitStep start_time st l)

/-- What the scanner thread leaves behind: the lines it echoed, its final
state, and the uncaught exception (if any) that killed it.  The default
thread excepthook prints the traceback to stderr; the main flow is not
interrupted. -/
structure ScanOutcome where
  echoed : List String
  state : ScanState
  err : Option HarnessError
deriving DecidableEq, Repr

/-- `tail_output` (npbtool.py lines 45-54): echo each line, scan it for
the two markers, stop if an exception is raised. -/
def tail_output (start_time : ℚ) (st : ScanState) : List OutLine → ScanOutcome
  | [] => ⟨[], st, none⟩
  | l :: ls =>
      match scanLineStep start_time st l with
      | .fail st1 e => ⟨[l.text], st1, some e⟩
      | .ok st1 =>
          let rest := tail_output start_time st1 ls
          ⟨l.text :: rest.echoed, rest.state, rest.err⟩

/-- A line of the final report (npbtool.py lines 68-72).  Values are kept
as rationals rather than rendered through `:.2f`, since binary-float
rendering is outside the embedding. -/
inductive ReportLine where
  /-- `print('-' * 40)` -/
  | rule
  /-- one of the three `... duration: {v:.2f} seconds` lines -/
  | durationLine (label : String) (value : ℚ)
  /-- `Mop/s: {v:.2f}` -/
  | mopLine (value : ℚ)
deriving DecidableEq, Repr

/-- Everything observable about one `time`-mode invocation. -/
structure TimeOutcome where
  /-- lines echoed by the scanner thread before it finished or died -/
  echoed : List String
  /-- uncaught exception of the scanner thread (traceback on stderr) -/
  scanErr : Option HarnessError
  initialization_duration : ℚ
  runtime_duration : ℚ
  total_duration : ℚ
  mop_s : Option ℚ
  /-- report lines actually printed -/
  reportPrinted : List ReportLine
  /-- `typeError` when `f"Mop/s: {None:.2f}"` aborts the report -/
  reportErr : Option HarnessError
deriving DecidableEq, Repr

/-- `do_time` (npbtool.py lines 30-72).  The child's exit status is a
parameter because `process.wait()` returns it, but the source discards
it, so it is unused.  `initialization_duration or 0.0` coincides with
`Option.getD 0` (a falsy stored `0.0` also yields `0.0`).  The rule and
the three duration lines print before the Mop/s f-string is evaluated,
so they survive a missing throughput value. -/
def do_time (start_time end_time : ℚ) (_exit_status : Int)
    (lines : List OutLine) : TimeOutcome :=
  let scan := tail_output start_time ⟨none, none⟩ lines
  let total_duration := end_time - start_time
  let initialization_duration := scan.state.initialization_duration.getD 0
  let runtime_duration := total_duration - initialization_duration
  let baseReport : List ReportLine :=
    [.rule,
     .durationLine "Initialization duration" initialization_duration,
     .durationLine "Runtime duration" runtime_duration,
     .durationLine "Total execution duration" total_duration]
  match scan.state.mop_s with
  | some v =>
      ⟨scan.echoed, scan.err, initialization_duration, runtime_duration,
       total_duration, some v, baseReport ++ [.mopLine v], none⟩
  | none =>
      ⟨scan.echoed, scan.err, initialization_duration, runtime_duration,
       total_duration, none, baseReport, some .typeError⟩

/-- Worker for `basename`: keep the (reversed) characters read since the
last `/`. -/
def basenameAux : List Char → List Char → List Char
  | [], acc => acc.reverse
  | c :: cs, acc =>
      if c == '/' then basenameAux cs [] else basenameAux cs (c :: acc)

/-- Python's `os.path.basename`: everything after the last `/`. -/
def basename (s : String) : String :=
  String.mk (basenameAux s.data [])

/-- Observable side effects of one `profile`-mode invocation, in
program order. -/
inductive PEvent where
  /-- `subprocess.run(["sudo", "modprobe", "msr"], check=True)` -/
  | runModprobe
  /-- `sys.exit(code)` -/
  | exitProgram (code : Nat)
  /-- `os.makedirs(path, exist_ok=True)` -/
  | makeOutputDir (path : String)
  /-- `subprocess.Popen(command, shell=True, env=env)`; `captureOutput`
  records whether stdout/stderr are piped back to the harness (they are
  in `do_time`, line 36, and are not here, line 93) -/
  | spawnBenchmark (command : String) (captureOutput : Bool)
  /-- `time.sleep(d)` -/
  | sleepFor (d : ℚ)
  /-- `subprocess.run(profiler_command)` -/
  | spawnProfiler (argv : List String)
  /-- `subprocess.run` returning, then `thread.join()` -/
  | waitProfiler
  /-- `process.wait()` -/
  | waitBenchmark
  /-- `print('-' * 40)` -/
  | printRule
  /-- the final `print(f"Profiling complete; output: {...}")` -/
  | printCompletion (msg : String)
deriving DecidableEq, Repr

/-- `run_profiler_on` (npbtool.py lines 95-103): sleep for the estimated
initialization duration, then run the profiler with a truncated
(`int(floor(...))`) duration and the fixed flag set. -/
def run_profiler_on (init_duration run_duration : ℚ)
    (csv_output_path : String) : List PEvent :=
  let run_duration_s : Int := ⌊run_duration⌋
  let profiler_command : List String :=
    [UPROF_PCM_EXE, "-m", "memory", "-a", "-d", toString run_duration_s,
     "-o", csv_output_path]
  [.sleepFor init_duration, .spawnProfiler profiler_command, .waitProfiler]

/-- `do_profile` (npbtool.py lines 75-113) as an event trace.
`modprobe_ok` is whether `subprocess.run(["sudo","modprobe","msr"],
check=True)` succeeds; on failure the handler prints a diagnostic and
calls `sys.exit(1)` before anything else happens.  On success: create
`out/`, derive the CSV path from the benchmark's basename, spawn the
benchmark (output not captured), run the profiler task, and print the
completion line only after `process.wait()` and `thread.join()`.  The
concurrent profiler task's events are listed at its start point; both
waits precede the prints, as in the source. -/
def do_profile (modprobe_ok : Bool) (init_duration run_duration : ℚ)
    (command : String) : List PEvent :=
  if modprobe_ok then
    let csv_output_path := "out/" ++ basename command ++ ".csv"
    [.runModprobe, .makeOutputDir "out/", .spawnBenchmark command false]
      ++ run_profiler_on init_duration run_duration csv_output_path
      ++ [.waitBenchmark, .printRule,
          .printCompletion ("Profiling complete; output: " ++ csv_output_path)]
  else
    [.runModprobe, .exitProgram 1]

/-! ### Lemmas about a single scan step -/

theorem splitStep_init (s : ℚ) (st : ScanState) (l : OutLine) :
    (splitStep s st l).initialization_duration =
      if strContains l.text SPLIT_MARKER && st.initialization_duration.isNone
      then some (l.t - s) else st.initialization_duration := by
  unfold splitStep
  split <;> rfl

theorem splitStep_mop (s : ℚ) (st : ScanState) (l : OutLine) :
    (splitStep s st l).mop_s = st.mop_s := by
  unfold splitStep
  split <;> rfl

theorem mopStep_state_init (l : OutLine) (st1 : ScanState) :
    (mopStep l st1).state.initialization_duration =
      st1.initialization_duration := by
  unfold mopStep
  split
  · split <;> (try split) <;> rfl
  · rfl

theorem mopStep_state_mop (l : OutLine) (st1 : ScanState) :
    (mopStep l st1).state.mop_s =
      if strContains l.text MOP_S_MARKER && st1.mop_s.isNone
      then ((pySplit l.text)[3]?).bind parseFloat
      else st1.mop_s := by
  unfold mopStep
  split
  · rename_i hcond
    simp only [Bool.and_eq_true, Option.isNone_iff_eq_none] at hcond
    obtain ⟨hm, h0⟩ := hcond
    cases h3 : (pySplit l.text)[3]? with
    | none => simp [StepResult.state, h3, h0]
    | some tok =>
        cases h4 : parseFloat tok with
        | none => simp [StepResult.state, h3, h4, h0]
        | some v => simp [StepResult.state, h3, h4]
  · rfl

theorem mopStep_ok_of_mop_some (l : OutLine) (st1 : ScanState) (v : ℚ)
    (h : st1.mop_s = some v) : mopStep l st1 = .ok st1 := by
  unfold mopStep
  simp [h]

theorem mopStep_ok_of_no_marker (l : OutLine) (st1 : ScanState)
    (h : strContains l.text MOP_S_MARKER = false) : mopStep l st1 = .ok st1 := by
  unfold mopStep
  simp [h]

theorem mopStep_ok_of_bind_some (l : OutLine) (st1 : ScanState) (v : ℚ)
    (hm : strContains l.text MOP_S_MARKER = true) (h0 : st1.mop_s = none)
    (hb : ((pySplit l.text)[3]?).bind parseFloat = some v) :
    mopStep l st1 = .ok { st1 with mop_s := some v } := by
  unfold mopStep
  cases h3 : (pySplit l.text)[3]? with
  | none => rw [h3] at hb; simp at hb
  | some tok =>
      rw [h3] at hb
      simp only [Option.some_bind] at hb
      simp [hm, h0, h3, hb]

theorem mopStep_fail_of_bind_none (l : OutLine) (st1 : ScanState)
    (hm : strContains l.text MOP_S_MARKER = true) (h0 : st1.mop_s = none)
    (hb : ((pySplit l.text)[3]?).bind parseFloat = none) :
    ∃ e, (e = HarnessError.indexError ∨ e = HarnessError.valueError)
      ∧ mopStep l st1 = .fail st1 e := by
  unfold mopStep
  cases h3 : (pySplit l.text)[3]? with
  | none => exact ⟨.indexError, Or.inl rfl, by simp [hm, h0, h3]⟩
  | some tok =>
      rw [h3] at hb
      simp only [Option.some_bind] at hb
      exact ⟨.valueError, Or.inr rfl, by simp [hm, h0, h3, hb]⟩

theorem scanLineStep_state_init (s : ℚ) (st : ScanState) (l : OutLine) :
    (scanLineStep s st l).state.initialization_duration =
      if strContains l.text SPLIT_MARKER && st.initialization_duration.isNone
      then some (l.t - s) else st.initialization_duration := by
  unfold scanLineStep
  rw [mopStep_state_init, splitStep_init]

theorem scanLineStep_state_mop (s : ℚ) (st : ScanState) (l : OutLine) :
    (scanLineStep s st l).state.mop_s =
      if strContains l.text MOP_S_MARKER && st.mop_s.isNone
      then ((pySplit l.text)[3]?).bind parseFloat
      else st.mop_s := by
  unfold scanLineStep
  rw [mopStep_state_mop, splitStep_mop]

/-! ### Lemmas about the whole scanning loop -/

theorem tail_output_nil (s : ℚ) (st : ScanState) :
    tail_output s st [] = ⟨[], st, none⟩ := rfl

theorem tail_output_cons_fail (s : ℚ) (st st1 : ScanState) (e : HarnessError)
    (l : OutLine) (ls : List OutLine) (h : scanLineStep s st l = .fail st1 e) :
    tail_output s st (l :: ls) = ⟨[l.text], st1, some e⟩ := by
  simp [tail_output, h]

theorem tail_output_cons_ok (s : ℚ) (st st1 : ScanState)
    (l : OutLine) (ls : List OutLine) (h : scanLineStep s st l = .ok st1) :
    tail_output s st (l :: ls) =
      ⟨l.text :: (tail_output s st1 ls).echoed,
       (tail_output s st1 ls).state, (tail_output s st1 ls).err⟩ := by
  simp [tail_output, h]

/-- A recorded split instant survives the rest of the scan. -/
theorem tail_output_init_some (s v : ℚ) :
    ∀ (ls : List OutLine) (st : ScanState),
      st.initialization_duration = some v →
      (tail_output s st ls).state.initialization_duration = some v := by
  intro ls
  induction ls with
  | nil => intro st h; rw [tail_output_nil]; exact h
  | cons l ls ih =>
      intro st h
      have hstep : (scanLineStep s st l).state.initialization_duration = some v := by
        rw [scanLineStep_state_init, h]
        simp
      cases hs : scanLineStep s st l with
      | fail st1 e =>
          rw [tail_output_cons_fail s st st1 e l ls hs]
          rw [hs] at hstep
          exact hstep
      | ok st1 =>
          rw [tail_output_cons_ok s st st1 l ls hs]
          rw [hs] at hstep
          exact ih st1 hstep

/-- A recorded throughput value survives the rest of the scan, and no
later line can raise. -/
theorem tail_output_mop_some (s v : ℚ) :
    ∀ (ls : List OutLine) (st : ScanState),
      st.mop_s = some v →
      (tail_output s st ls).state.mop_s = some v
      ∧ (tail_output s st ls).err = none := by
  intro ls
  induction ls with
  | nil => intro st h; rw [tail_output_nil]; exact ⟨h, rfl⟩
  | cons l ls ih =>
      intro st h
      have hmop1 : (splitStep s st l).mop_s = some v := by
        rw [splitStep_mop]; exact h
      have hs : scanLineStep s st l = .ok (splitStep s st l) :=
        mopStep_ok_of_mop_some l (splitStep s st l) v hmop1
      rw [tail_output_cons_ok s st (splitStep s st l) l ls hs]
      exact ih (splitStep s st l) hmop1

/-- The recorded split instant either is the one the scan started with,
or comes from one of the scanned lines. -/
theorem tail_output_init_mem (s : ℚ) :
    ∀ (ls : List OutLine) (st : ScanState),
      (tail_output s st ls).state.initialization_duration
          = st.initialization_duration
      ∨ ∃ l ∈ ls,
          (tail_output s st ls).state.initialization_duration = some (l.t - s) := by
  intro ls
  induction ls with
  | nil => intro st; left; rw [tail_output_nil]
  | cons l ls ih =>
      intro st
      have hstep := scanLineStep_state_init s st l
      cases hs : scanLineStep s st l with
      | fail st1 e =>
          rw [tail_output_cons_fail s st st1 e l ls hs]
          rw [hs] at hstep
          simp only [StepResult.state] at hstep
          by_cases hc :
              (strContains l.text SPLIT_MARKER
                && st.initialization_duration.isNone) = true
          · right
            refine ⟨l, List.mem_cons_self l ls, ?_⟩
            show st1.initialization_duration = some (l.t - s)
            rw [hstep, if_pos hc]
          · left
            show st1.initialization_duration = st.initialization_duration
            rw [hstep, if_neg hc]
      | ok st1 =>
          rw [tail_output_cons_ok s st st1 l ls hs]
          rw [hs] at hstep
          simp only [StepResult.state] at hstep
          rcases ih st1 with h1 | ⟨l', hl', h2⟩
          · by_cases hc :
                (strContains l.text SPLIT_MARKER
                  && st.initialization_duration.isNone) = true
            · right
              refine ⟨l, List.mem_cons_self l ls, ?_⟩
              show (tail_output s st1 ls).state.initialization_duration
                  = some (l.t - s)
              rw [h1, hstep, if_pos hc]
            · left
              show (tail_output s st1 ls).state.initialization_duration
                  = st.initialization_duration
              rw [h1, hstep, if_neg hc]
          · right
            exact ⟨l', List.mem_cons_of_mem l hl', h2⟩

/-- If no line contains the split marker, the split record is untouched. -/
theorem tail_output_init_no_marker (s : ℚ) :
    ∀ (ls : List OutLine) (st : ScanState),
      (∀ l ∈ ls, strContains l.text SPLIT_MARKER = false) →
      (tail_output s st ls).state.initialization_duration
        = st.initialization_duration := by
  intro ls
  induction ls with
  | nil => intro st _; rw [tail_output_nil]
  | cons l ls ih =>
      intro st h
      have hstep := scanLineStep_state_init s st l
      rw [h l (List.mem_cons_self l ls)] at hstep
      simp only [Bool.false_and, Bool.false_eq_true, if_false] at hstep
      cases hs : scanLineStep s st l with
      | fail st1 e =>
          rw [tail_output_cons_fail s st st1 e l ls hs]
          rw [hs] at hstep
          simp only [StepResult.state] at hstep
          exact hstep
      | ok st1 =>
          rw [tail_output_cons_ok s st st1 l ls hs]
          rw [hs] at hstep
          simp only [StepResult.state] at hstep
          show (tail_output s st1 ls).state.initialization_duration
              = st.initialization_duration
          rw [ih st1 (fun x hx => h x (List.mem_cons_of_mem l hx)), hstep]

/-- If no line contains the throughput marker, the throughput record is
untouched and the scan cannot raise. -/
theorem tail_output_mop_no_marker (s : ℚ) :
    ∀ (ls : List OutLine) (st : ScanState),
      (∀ l ∈ ls, strContains l.text MOP_S_MARKER = false) →
      (tail_output s st ls).state.mop_s = st.mop_s
      ∧ (tail_output s st ls).err = none := by
  intro ls
  induction ls with
  | nil => intro st _; rw [tail_output_nil]; exact ⟨rfl, rfl⟩
  | cons l ls ih =>
      intro st h
      have hs : scanLineStep s st l = .ok (splitStep s st l) := by
        unfold scanLineStep
        exact mopStep_ok_of_no_marker l (splitStep s st l)
          (h l (List.mem_cons_self l ls))
      rw [tail_output_cons_ok s st (splitStep s st l) l ls hs]
      have hrec := ih (splitStep s st l)
        (fun x hx => h x (List.mem_cons_of_mem l hx))
      exact ⟨by rw [hrec.1, splitStep_mop], hrec.2⟩

/-- First-match-wins for the split marker: when the scan does not raise,
the recorded initialization instant is exactly the first marker line's
elapsed offset. -/
theorem tail_output_init_first (s : ℚ) :
    ∀ (ls : List OutLine) (st : ScanState),
      st.initialization_duration = none →
      (tail_output s st ls).err = none →
      (tail_output s st ls).state.initialization_duration
        = (ls.find? (fun l => strContains l.text SPLIT_MARKER)).map
            (fun l => l.t - s) := by
  intro ls
  induction ls with
  | nil => intro st h0 _; rw [tail_output_nil]; simpa using h0
  | cons l ls ih =>
      intro st h0 herr
      cases hs : scanLineStep s st l with
      | fail st1 e =>
          rw [tail_output_cons_fail s st st1 e l ls hs] at herr
          simp at herr
      | ok st1 =>
          rw [tail_output_cons_ok s st st1 l ls hs] at herr ⊢
          simp only at herr ⊢
          have hstep := scanLineStep_state_init s st l
          rw [hs] at hstep
          simp only [StepResult.state] at hstep
          by_cases hm : strContains l.text SPLIT_MARKER = true
          · have hfind : List.find? (fun x => strContains x.text SPLIT_MARKER)
                (l :: ls) = some l := List.find?_cons_of_pos ls hm
            rw [hfind]
            show (tail_output s st1 ls).state.initialization_duration
                = some (l.t - s)
            have h1 : st1.initialization_duration = some (l.t - s) := by
              rw [hstep, h0]
              simp [hm]
            exact tail_output_init_some s (l.t - s) ls st1 h1
          · have hfind : List.find? (fun x => strContains x.text SPLIT_MARKER)
                (l :: ls)
                  = List.find? (fun x => strContains x.text SPLIT_MARKER) ls :=
              List.find?_cons_of_neg ls hm
            rw [hfind]
            have h1 : st1.initialization_duration = none := by
              rw [hstep, h0]
              simp [Bool.eq_false_iff.mpr hm]
            exact ih st1 h1 herr

/-- First-match-wins for the throughput marker: when the scan does not
raise, the recorded value is the parse of the fourth token of the first
marker line. -/
theorem tail_output_mop_first (s : ℚ) :
    ∀ (ls : List OutLine) (st : ScanState),
      st.mop_s = none →
      (tail_output s st ls).err = none →
      (tail_output s st ls).state.mop_s
        = (ls.find? (fun l => strContains l.text MOP_S_MARKER)).bind
            (fun l => ((pySplit l.text)[3]?).bind parseFloat) := by
  intro ls
  induction ls with
  | nil => intro st h0 _; rw [tail_output_nil]; simpa using h0
  | cons l ls ih =>
      intro st h0 herr
      by_cases hm : strContains l.text MOP_S_MARKER = true
      · have h1 : (splitStep s st l).mop_s = none := by
          rw [splitStep_mop]; exact h0
        have hfind : List.find? (fun x => strContains x.text MOP_S_MARKER)
            (l :: ls) = some l := List.find?_cons_of_pos ls hm
        rw [hfind, Option.some_bind]
        cases hb : ((pySplit l.text)[3]?).bind parseFloat with
        | none =>
            obtain ⟨e, _, he⟩ :=
              mopStep_fail_of_bind_none l (splitStep s st l) hm h1 hb
            have hs : scanLineStep s st l = .fail (splitStep s st l) e := he
            rw [tail_output_cons_fail s st (splitStep s st l) e l ls hs] at herr
            simp at herr
        | some v =>
            have hs : scanLineStep s st l
                = .ok { splitStep s st l with mop_s := some v } :=
              mopStep_ok_of_bind_some l (splitStep s st l) v hm h1 hb
            rw [tail_output_cons_ok s st _ l ls hs]
            exact (tail_output_mop_some s v ls _ rfl).1
      · have hs : scanLineStep s st l = .ok (splitStep s st l) := by
          unfold scanLineStep
          exact mopStep_ok_of_no_marker l (splitStep s st l)
            (Bool.eq_false_iff.mpr hm)
        rw [tail_output_cons_ok s st (splitStep s st l) l ls hs] at herr ⊢
        simp only at herr ⊢
        have hfind : List.find? (fun x => strContains x.text MOP_S_MARKER)
            (l :: ls)
              = List.find? (fun x => strContains x.text MOP_S_MARKER) ls :=
          List.find?_cons_of_neg ls hm
        rw [hfind]
        exact ih (splitStep s st l) (by rw [splitStep_mop]; exact h0) herr

/-! ### Projections of `do_time` -/

theorem do_time_total (s e : ℚ) (c : Int) (lines : List OutLine) :
    (do_time s e c lines).total_duration = e - s := by
  simp only [do_time]
  split <;> rfl

theorem do_time_init (s e : ℚ) (c : Int) (lines : List OutLine) :
    (do_time s e c lines).initialization_duration
      = ((tail_output s ⟨none, none⟩ lines).state.initialization_duration).getD 0 := by
  simp only [do_time]
  split <;> rfl

theorem do_time_runtime_eq (s e : ℚ) (c : Int) (lines : List OutLine) :
    (do_time s e c lines).runtime_duration
      = (do_time s e c lines).total_duration
        - (do_time s e c lines).initialization_duration := by
  simp only [do_time]
  split <;> rfl

theorem do_time_mop (s e : ℚ) (c : Int) (lines : List OutLine) :
    (do_time s e c lines).mop_s
      = (tail_output s ⟨none, none⟩ lines).state.mop_s := by
  simp only [do_time]
  split
  · next v hv => rw [hv]
  · next hv => rw [hv]

theorem do_time_scanErr (s e : ℚ) (c : Int) (lines : List OutLine) :
    (do_time s e c lines).scanErr = (tail_output s ⟨none, none⟩ lines).err := by
  simp only [do_time]
  split <;> rfl

theorem do_time_report_shape (s e : ℚ) (c : Int) (lines : List OutLine) :
    (do_time s e c lines).reportPrinted =
      [ReportLine.rule,
       ReportLine.durationLine "Initialization duration"
         (do_time s e c lines).initialization_duration,
       ReportLine.durationLine "Runtime duration"
         (do_time s e c lines).runtime_duration,
       ReportLine.durationLine "Total execution duration"
         (do_time s e c lines).total_duration]
      ++ (match (do_time s e c lines).mop_s with
          | some v => [ReportLine.mopLine v]
          | none => []) := by
  simp only [do_time]
  split <;> rfl

theorem do_time_reportErr (s e : ℚ) (c : Int) (lines : List OutLine) :
    (do_time s e c lines).reportErr
      = (match (do_time s e c lines).mop_s with
         | some _ => none
         | none => some HarnessError.typeError) := by
  simp only [do_time]
  split <;> rfl

/-! ### Claim theorems -/

/-- C1: in timing mode, for a session whose end instant is no earlier
than its start and whose lines are scanned at instants within
[start, end] (the data-model invariant of the spec), the reported
runtime duration equals the reported total duration minus the reported
initialization duration exactly, and reported total ≥ reported
initialization ≥ 0. -/
theorem spec_c1_durations (start_time end_time : ℚ) (c : Int)
    (lines : List OutLine)
    (hse : start_time ≤ end_time)
    (hl : ∀ l ∈ lines, start_time ≤ l.t ∧ l.t ≤ end_time) :
    (do_time start_time end_time c lines).runtime_duration
        = (do_time start_time end_time c lines).total_duration
          - (do_time start_time end_time c lines).initialization_duration
    ∧ 0 ≤ (do_time start_time end_time c lines).initialization_duration
    ∧ (do_time start_time end_time c lines).initialization_duration
        ≤ (do_time start_time end_time c lines).total_duration := by
  have hmem := tail_output_init_mem start_time lines ⟨none, none⟩
  have hboth :
      0 ≤ ((tail_output start_time ⟨none, none⟩ lines).state.initialization_duration).getD 0
      ∧ ((tail_output start_time ⟨none, none⟩ lines).state.initialization_duration).getD 0
          ≤ end_time - start_time := by
    rcases hmem with h | ⟨l, hlmem, h⟩
    · rw [h]
      exact ⟨le_refl 0, sub_nonneg.mpr hse⟩
    · rw [h]
      simp only [Option.getD_some]
      exact ⟨sub_nonneg.mpr (hl l hlmem).1,
             sub_le_sub_right (hl l hlmem).2 start_time⟩
  refine ⟨do_time_runtime_eq start_time end_time c lines, ?_, ?_⟩
  · rw [do_time_init]
    exact hboth.1
  · rw [do_time_init, do_time_total]
    exact hboth.2

/-- C1 witness at a concrete session. -/
theorem spec_c1_witness :
    (do_time 0 10 0 [⟨2, "Initialization time"⟩]).runtime_duration
        = (do_time 0 10 0 [⟨2, "Initialization time"⟩]).total_duration
          - (do_time 0 10 0 [⟨2, "Initialization time"⟩]).initialization_duration
    ∧ 0 ≤ (do_time 0 10 0 [⟨2, "Initialization time"⟩]).initialization_duration
    ∧ (do_time 0 10 0 [⟨2, "Initialization time"⟩]).initialization_duration
        ≤ (do_time 0 10 0 [⟨2, "Initialization time"⟩]).total_duration :=
  spec_c1_durations 0 10 0 [⟨2, "Initialization time"⟩]
    (by norm_num) (by decide)

/-- C3: in timing mode, if the split marker appears on no line, the
reported initialization duration is exactly 0 and the reported runtime
duration equals the reported total duration. -/
theorem spec_c3_no_split_marker (s e : ℚ) (c : Int) (lines : List OutLine)
    (h : ∀ l ∈ lines, strContains l.text SPLIT_MARKER = false) :
    (do_time s e c lines).initialization_duration = 0
    ∧ (do_time s e c lines).runtime_duration
        = (do_time s e c lines).total_duration := by
  have hinit : (do_time s e c lines).initialization_duration = 0 := by
    rw [do_time_init, tail_output_init_no_marker s lines ⟨none, none⟩ h]
    rfl
  exact ⟨hinit, by rw [do_time_runtime_eq, hinit, sub_zero]⟩

/-- C3 witness at a concrete session with no split marker. -/
theorem spec_c3_witness :
    (do_time 0 10 0 [⟨2, "hello world"⟩]).initialization_duration = 0
    ∧ (do_time 0 10 0 [⟨2, "hello world"⟩]).runtime_duration
        = (do_time 0 10 0 [⟨2, "hello world"⟩]).total_duration :=
  spec_c3_no_split_marker 0 10 0 [⟨2, "hello world"⟩] (by decide)

/-- C7: in timing mode, if the throughput marker appears on no line, the
throughput value stays missing, the report aborts with the `TypeError`
of formatting `None`, and exactly the rule and the three duration lines
are printed — no throughput line. -/
theorem spec_c7_missing_throughput (s e : ℚ) (c : Int) (lines : List OutLine)
    (h : ∀ l ∈ lines, strContains l.text MOP_S_MARKER = false) :
    (do_time s e c lines).mop_s = none
    ∧ (do_time s e c lines).reportErr = some HarnessError.typeError
    ∧ (do_time s e c lines).reportPrinted =
        [ReportLine.rule,
         ReportLine.durationLine "Initialization duration"
           (do_time s e c lines).initialization_duration,
         ReportLine.durationLine "Runtime duration"
           (do_time s e c lines).runtime_duration,
         ReportLine.durationLine "Total execution duration"
           (do_time s e c lines).total_duration] := by
  have hmop : (do_time s e c lines).mop_s = none := by
    rw [do_time_mop]
    exact (tail_output_mop_no_marker s lines ⟨none, none⟩ h).1
  refine ⟨hmop, ?_, ?_⟩
  · rw [do_time_reportErr, hmop]
  · rw [do_time_report_shape, hmop]
    simp

/-- C7 witness at a concrete session with no throughput marker. -/
theorem spec_c7_witness :
    (do_time 0 10 0 [⟨2, "Initialization time"⟩]).mop_s = none
    ∧ (do_time 0 10 0 [⟨2, "Initialization time"⟩]).reportErr
        = some HarnessError.typeError
    ∧ (do_time 0 10 0 [⟨2, "Initialization time"⟩]).reportPrinted =
        [ReportLine.rule,
         ReportLine.durationLine "Initialization duration"
           (do_time 0 10 0 [⟨2, "Initialization time"⟩]).initialization_duration,
         ReportLine.durationLine "Runtime duration"
           (do_time 0 10 0 [⟨2, "Initialization time"⟩]).runtime_duration,
         ReportLine.durationLine "Total execution duration"
           (do_time 0 10 0 [⟨2, "Initialization time"⟩]).total_duration] :=
  spec_c7_missing_throughput 0 10 0 [⟨2, "Initialization time"⟩] (by decide)

/-- C8: the harness never inspects the benchmark child's exit status:
the whole timing outcome is the same for every status, and the report
(rule plus the three duration lines) is printed regardless. -/
theorem spec_c8_exit_status (s e : ℚ) (lines : List OutLine) (c c' : Int) :
    do_time s e c lines = do_time s e c' lines
    ∧ ∃ rest, (do_time s e c lines).reportPrinted
        = ReportLine.rule
          :: ReportLine.durationLine "Initialization duration"
               (do_time s e c lines).initialization_duration
          :: ReportLine.durationLine "Runtime duration"
               (do_time s e c lines).runtime_duration
          :: ReportLine.durationLine "Total execution duration"
               (do_time s e c lines).total_duration
          :: rest :=
  ⟨rfl, ⟨_, do_time_report_shape s e c lines⟩⟩

/-- Behaviour of the scan at the first throughput-marker line: a
parseable fourth token is recorded and the scan finishes cleanly; an
unparseable one kills the scanner thread with a parse exception and the
value stays missing. -/
theorem tail_output_found (s : ℚ) :
    ∀ (ls : List OutLine) (st : ScanState), st.mop_s = none →
      ∀ l, ls.find? (fun x => strContains x.text MOP_S_MARKER) = some l →
        (∀ v, ((pySplit l.text)[3]?).bind parseFloat = some v →
            (tail_output s st ls).state.mop_s = some v
            ∧ (tail_output s st ls).err = none)
        ∧ (((pySplit l.text)[3]?).bind parseFloat = none →
            ∃ e, (e = HarnessError.indexError ∨ e = HarnessError.valueError)
              ∧ (tail_output s st ls).err = some e
              ∧ (tail_output s st ls).state.mop_s = none) := by
  intro ls
  induction ls with
  | nil => intro st h0 l hfind; simp at hfind
  | cons x ls ih =>
      intro st h0 l hfind
      have h1 : (splitStep s st x).mop_s = none := by
        rw [splitStep_mop]; exact h0
      by_cases hm : strContains x.text MOP_S_MARKER = true
      · have hfx : List.find? (fun y => strContains y.text MOP_S_MARKER)
            (x :: ls) = some x := List.find?_cons_of_pos ls hm
        rw [hfx] at hfind
        injection hfind with hlx
        subst hlx
        constructor
        · intro v hv
          have hs : scanLineStep s st x
              = .ok { splitStep s st x with mop_s := some v } :=
            mopStep_ok_of_bind_some x (splitStep s st x) v hm h1 hv
          rw [tail_output_cons_ok s st _ x ls hs]
          have hrec := tail_output_mop_some s v ls
            { splitStep s st x with mop_s := some v } rfl
          exact ⟨hrec.1, hrec.2⟩
        · intro hv
          obtain ⟨e, he12, hfail⟩ :=
            mopStep_fail_of_bind_none x (splitStep s st x) hm h1 hv
          have hs : scanLineStep s st x = .fail (splitStep s st x) e := hfail
          rw [tail_output_cons_fail s st _ e x ls hs]
          exact ⟨e, he12, rfl, h1⟩
      · have hfx : List.find? (fun y => strContains y.text MOP_S_MARKER)
            (x :: ls)
              = List.find? (fun y => strContains y.text MOP_S_MARKER) ls :=
          List.find?_cons_of_neg ls hm
        rw [hfx] at hfind
        have hs : scanLineStep s st x = .ok (splitStep s st x) := by
          unfold scanLineStep
          exact mopStep_ok_of_no_marker x (splitStep s st x)
            (Bool.eq_false_iff.mpr hm)
        rw [tail_output_cons_ok s st _ x ls hs]
        exact ih (splitStep s st x) h1 l hfind

/-- C2: in timing mode, at the first line containing the throughput
marker the harness parses the fourth whitespace-delimited token as a
float.  If it parses, the value is reported as the throughput metric and
the report ends normally; if it does not, the scanner thread dies with
the parse exception (IndexError or ValueError — surfaced on stderr, not
swallowed) and the report is not emitted normally: it aborts before the
throughput line. -/
theorem spec_c2_throughput_parse (s e : ℚ) (c : Int) (lines : List OutLine)
    (l : OutLine)
    (hfind : lines.find? (fun x => strContains x.text MOP_S_MARKER) = some l) :
    (∀ v, ((pySplit l.text)[3]?).bind parseFloat = some v →
        (do_time s e c lines).mop_s = some v
        ∧ ReportLine.mopLine v ∈ (do_time s e c lines).reportPrinted
        ∧ (do_time s e c lines).reportErr = none
        ∧ (do_time s e c lines).scanErr = none)
    ∧ (((pySplit l.text)[3]?).bind parseFloat = none →
        (∃ e', (e' = HarnessError.indexError ∨ e' = HarnessError.valueError)
            ∧ (do_time s e c lines).scanErr = some e')
        ∧ (do_time s e c lines).reportErr = some HarnessError.typeError
        ∧ ∀ v, ReportLine.mopLine v ∉ (do_time s e c lines).reportPrinted) := by
  have hfound := tail_output_found s lines ⟨none, none⟩ rfl l hfind
  constructor
  · intro v hv
    have hmop : (do_time s e c lines).mop_s = some v := by
      rw [do_time_mop]
      exact ((hfound.1 v) hv).1
    refine ⟨hmop, ?_, ?_, ?_⟩
    · rw [do_time_report_shape, hmop]
      simp
    · rw [do_time_reportErr, hmop]
    · rw [do_time_scanErr]
      exact ((hfound.1 v) hv).2
  · intro hv
    obtain ⟨e', he12, herr, hmopn⟩ := hfound.2 hv
    have hmop : (do_time s e c lines).mop_s = none := by
      rw [do_time_mop]; exact hmopn
    refine ⟨⟨e', he12, ?_⟩, ?_, ?_⟩
    · rw [do_time_scanErr]; exact herr
    · rw [do_time_reportErr, hmop]
    · intro v
      rw [do_time_report_shape, hmop]
      simp

/-- C2 witness: a throughput-marker line whose fourth token is missing
(only three tokens) raises, the report aborts, and no throughput line is
printed. -/
theorem spec_c2_witness :
    (∀ v, ((pySplit (OutLine.mk 1 "Mop/s total =").text)[3]?).bind parseFloat
            = some v →
        (do_time 0 10 0 [⟨1, "Mop/s total ="⟩]).mop_s = some v
        ∧ ReportLine.mopLine v
            ∈ (do_time 0 10 0 [⟨1, "Mop/s total ="⟩]).reportPrinted
        ∧ (do_time 0 10 0 [⟨1, "Mop/s total ="⟩]).reportErr = none
        ∧ (do_time 0 10 0 [⟨1, "Mop/s total ="⟩]).scanErr = none)
    ∧ (((pySplit (OutLine.mk 1 "Mop/s total =").text)[3]?).bind parseFloat
            = none →
        (∃ e', (e' = HarnessError.indexError ∨ e' = HarnessError.valueError)
            ∧ (do_time 0 10 0 [⟨1, "Mop/s total ="⟩]).scanErr = some e')
        ∧ (do_time 0 10 0 [⟨1, "Mop/s total ="⟩]).reportErr
            = some HarnessError.typeError
        ∧ ∀ v, ReportLine.mopLine v
            ∉ (do_time 0 10 0 [⟨1, "Mop/s total ="⟩]).reportPrinted) :=
  spec_c2_throughput_parse 0 10 0 [⟨1, "Mop/s total ="⟩]
    ⟨1, "Mop/s total ="⟩ (by decide)

/-- C4: marker detection is first-match-wins: when the scan finishes
without raising, the reported initialization duration is determined by
the first split-marker line alone (0 when there is none), and the
recorded throughput by the first throughput-marker line alone; later
occurrences of either marker are ignored. -/
theorem spec_c4_first_match (s e : ℚ) (c : Int) (lines : List OutLine)
    (herr : (do_time s e c lines).scanErr = none) :
    (do_time s e c lines).initialization_duration
        = ((lines.find? (fun l => strContains l.text SPLIT_MARKER)).map
            (fun l => l.t - s)).getD 0
    ∧ (do_time s e c lines).mop_s
        = (lines.find? (fun l => strContains l.text MOP_S_MARKER)).bind
            (fun l => ((pySplit l.text)[3]?).bind parseFloat) := by
  rw [do_time_scanErr] at herr
  constructor
  · rw [do_time_init, tail_output_init_first s lines ⟨none, none⟩ rfl herr]
  · rw [do_time_mop, tail_output_mop_first s lines ⟨none, none⟩ rfl herr]

/-- C4 witness: a stream in which both markers occur twice; the recorded
values come from the first occurrences (instant 1 and value 5.5), not the
later ones. -/
theorem spec_c4_witness :
    (do_time 0 10 0
        [⟨1, "x Initialization time"⟩, ⟨2, "Initialization time again"⟩,
         ⟨3, "Mop/s total = 5.5"⟩, ⟨4, "Mop/s total = 7.5"⟩]).initialization_duration
        = (([⟨1, "x Initialization time"⟩, ⟨2, "Initialization time again"⟩,
             ⟨3, "Mop/s total = 5.5"⟩,
             (⟨4, "Mop/s total = 7.5"⟩ : OutLine)].find?
              (fun l => strContains l.text SPLIT_MARKER)).map
            (fun l => l.t - 0)).getD 0
    ∧ (do_time 0 10 0
        [⟨1, "x Initialization time"⟩, ⟨2, "Initialization time again"⟩,
         ⟨3, "Mop/s total = 5.5"⟩, ⟨4, "Mop/s total = 7.5"⟩]).mop_s
        = ([⟨1, "x Initialization time"⟩, ⟨2, "Initialization time again"⟩,
            ⟨3, "Mop/s total = 5.5"⟩,
            (⟨4, "Mop/s total = 7.5"⟩ : OutLine)].find?
             (fun l => strContains l.text MOP_S_MARKER)).bind
            (fun l => ((pySplit l.text)[3]?).bind parseFloat) :=
  spec_c4_first_match 0 10 0
    [⟨1, "x Initialization time"⟩, ⟨2, "Initialization time again"⟩,
     ⟨3, "Mop/s total = 5.5"⟩, ⟨4, "Mop/s total = 7.5"⟩] (by decide)

/-- The event trace of a successful `profile`-mode invocation, spelled
out. -/
theorem do_profile_true_eq (i r : ℚ) (cmd : String) :
    do_profile true i r cmd =
      [PEvent.runModprobe, PEvent.makeOutputDir "out/",
       PEvent.spawnBenchmark cmd false, PEvent.sleepFor i,
       PEvent.spawnProfiler
         [UPROF_PCM_EXE, "-m", "memory", "-a", "-d", toString (⌊r⌋ : Int),
          "-o", "out/" ++ basename cmd ++ ".csv"],
       PEvent.waitProfiler, PEvent.waitBenchmark, PEvent.printRule,
       PEvent.printCompletion
         ("Profiling complete; output: "
           ++ ("out/" ++ basename cmd ++ ".csv"))] := by
  simp [do_profile, run_profiler_on]

/-- C5: in profiling mode the profiler is invoked with the duration
argument `int(floor(run_duration))` — the floor, not the rounded value
(9.7 yields 9, where rounding would give 10) — together with the fixed
flag set: `-m memory` (memory-bandwidth mode), `-a` (all cores), and
`-o` with the artifact path. -/
theorem spec_c5_profiler_invocation :
    (∀ (init_duration run_duration : ℚ) (command : String),
        PEvent.spawnProfiler
            [UPROF_PCM_EXE, "-m", "memory", "-a", "-d",
             toString (⌊run_duration⌋ : Int), "-o",
             "out/" ++ basename command ++ ".csv"]
          ∈ do_profile true init_duration run_duration command)
    ∧ toString (⌊(97 : ℚ) / 10⌋ : Int) = "9"
    ∧ (⌊(97 : ℚ) / 10⌋ : Int) ≠ round ((97 : ℚ) / 10)
    ∧ round ((97 : ℚ) / 10) = 10 := by
  refine ⟨?_, ?_, ?_, ?_⟩
  · intro i r cmd
    rw [do_profile_true_eq]
    simp
  · rw [show (⌊(97 : ℚ) / 10⌋ : Int) = 9 from by norm_num]
    decide
  · norm_num [round_eq]
  · norm_num [round_eq]

/-- C6: in profiling mode, when loading the `msr` kernel module fails
the invocation exits with status 1 (non-zero) and the trace holds no
benchmark or profiler spawn at all. -/
theorem spec_c6_modprobe_failure (i r : ℚ) (cmd : String) :
    do_profile false i r cmd = [PEvent.runModprobe, PEvent.exitProgram 1]
    ∧ (∃ code, code ≠ 0
        ∧ PEvent.exitProgram code ∈ do_profile false i r cmd)
    ∧ ∀ ev ∈ do_profile false i r cmd,
        (∀ c capture, ev ≠ PEvent.spawnBenchmark c capture)
        ∧ ∀ argv, ev ≠ PEvent.spawnProfiler argv := by
  refine ⟨rfl, ⟨1, one_ne_zero, by simp [do_profile]⟩, ?_⟩
  intro ev hev
  have hev2 : ev = PEvent.runModprobe ∨ ev = PEvent.exitProgram 1 := by
    simpa [do_profile] using hev
  rcases hev2 with h | h <;> subst h <;>
    exact ⟨fun _ _ => by simp, fun _ => by simp⟩

/-- C9: the artifact path is `out/<basename>.csv` derived from the
benchmark command (`/bin/foo` gives `out/foo.csv`), and the output
directory is created (event index 1) before the benchmark child is
spawned (event index 2). -/
theorem spec_c9_artifact_path (i r : ℚ) (cmd : String) :
    ((do_profile true i r cmd)[1]? = some (PEvent.makeOutputDir "out/")
     ∧ (do_profile true i r cmd)[2]?
         = some (PEvent.spawnBenchmark cmd false)
     ∧ PEvent.printCompletion
           ("Profiling complete; output: "
             ++ ("out/" ++ basename cmd ++ ".csv"))
         ∈ do_profile true i r cmd)
    ∧ basename "/bin/foo" = "foo"
    ∧ "out/" ++ basename "/bin/foo" ++ ".csv" = "out/foo.csv" := by
  refine ⟨⟨?_, ?_, ?_⟩, by decide, by decide⟩
  · rw [do_profile_true_eq]
    rfl
  · rw [do_profile_true_eq]
    rfl
  · rw [do_profile_true_eq]
    simp

/-- C10: in profiling mode the benchmark is spawned without capturing
its output (no pipe, so no marker scanning and no timing report), and
the harness's own printing is exactly the rule and the one completion
line naming the CSV path, emitted after both `process.wait()` (index 6)
and the profiler task's end (index 5). -/
theorem spec_c10_profile_no_capture (i r : ℚ) (cmd : String) :
    do_profile true i r cmd =
      [PEvent.runModprobe, PEvent.makeOutputDir "out/",
       PEvent.spawnBenchmark cmd false, PEvent.sleepFor i,
       PEvent.spawnProfiler
         [UPROF_PCM_EXE, "-m", "memory", "-a", "-d", toString (⌊r⌋ : Int),
          "-o", "out/" ++ basename cmd ++ ".csv"],
       PEvent.waitProfiler, PEvent.waitBenchmark, PEvent.printRule,
       PEvent.printCompletion
         ("Profiling complete; output: "
           ++ ("out/" ++ basename cmd ++ ".csv"))]
    ∧ (∀ c capture,
        PEvent.spawnBenchmark c capture ∈ do_profile true i r cmd →
          capture = false)
    ∧ (do_profile true i r cmd)[5]? = some PEvent.waitProfiler
    ∧ (do_profile true i r cmd)[6]? = some PEvent.waitBenchmark
    ∧ (do_profile true i r cmd).getLast?
        = some (PEvent.printCompletion
            ("Profiling complete; output: "
              ++ ("out/" ++ basename cmd ++ ".csv"))) := by
  refine ⟨do_profile_true_eq i r cmd, ?_, ?_, ?_, ?_⟩
  · intro c capture hmem
    rw [do_profile_true_eq] at hmem
    simp only [List.mem_cons, List.not_mem_nil, or_false] at hmem
    rcases hmem with h | h | h | h | h | h | h | h | h <;> simp_all
  · rw [do_profile_true_eq]
    rfl
  · rw [do_profile_true_eq]
    rfl
  · rw [do_profile_true_eq]
    rfl
